import Mathlib

/-!
Verification of the Terrain Mesh Synthesis Engine of the `mercury` backend
(`src/backend/app/services/model_generator.py`, `ModelGenerator.generate_stl`).

Shallow embedding conventions:
* Python floats are modelled as rationals (`ℚ`).  Rational division by zero
  yields `0` in Lean; in the source, numpy float division by zero yields
  `inf`/`nan` with a warning and *no exception*, so on every error-related
  claim the two models agree on whether an exception is raised.
* A grid elevation that is `None` or NaN is modelled as `Option.none`:
  the source treats both identically at the two places they matter
  (`elevs > -9000` filters both out of the min/max, and
  `elev is None or np.isnan(elev)` sends both to `min_elev`).
* `math.cos(math.radians d)` is not a rational function; the whole pipeline
  is parameterised by `cosD : ℚ → ℚ` standing for that composite.  The claim
  about the cosine correction itself (C8) is stated over `ℝ` with `Real.cos`.
* The `ValueError`s raised by `generate_stl` are modelled by the inductive
  `GenError`, one constructor per raise site, using the spec's taxonomy names.
-/

namespace Mercury

/-- One sample of the elevation grid: the source stores `[lat, lon, elevation]`
with `elevation` possibly `None`/NaN (modelled as `none`). -/
structure GridPoint where
  lat : ℚ
  lon : ℚ
  elev : Option ℚ
  deriving Repr, DecidableEq, Inhabited

/-- One track point: the source reads `point["latitude"]`, `point["longitude"]`. -/
structure TrackPoint where
  latitude : ℚ
  longitude : ℚ
  deriving Repr, DecidableEq, Inhabited

/-- The keyword configuration of `generate_stl` (defaults 2.0, 100.0, 1.0, 0.5, 0.5). -/
structure Config where
  base_thickness_mm : ℚ
  model_width_mm : ℚ
  altitude_multiplier : ℚ
  path_elevation_mm : ℚ
  path_radius_mm : ℚ
  deriving Repr, DecidableEq, Inhabited

/-- A vertex `[x, y, z]` as appended to the `vertices` list. -/
abbrev Vertex := ℚ × ℚ × ℚ

/-- A face `[v1, v2, v3]` of vertex indices as appended to the `faces` list. -/
abbrev Face := ℕ × ℕ × ℕ

/-- Error taxonomy for the `ValueError` raise sites of `generate_stl`,
named after the spec's §7 taxonomy.  `invalidGrid` is the
`"Invalid elevation grid"` raise, `missingTrack` is `"Track points are
required"`, `emptyElevationRange` is the `"Error processing elevation data"`
re-raise whose only reachable cause after the earlier validations is
`np.min` of the empty filtered elevation array, and `degenerateExtent`
is the spec-demanded zero-`geo_width` guard (no raise site in the source
produces it). -/
inductive GenError where
  | invalidGrid
  | missingTrack
  | emptyElevationRange
  | degenerateExtent
  deriving Repr, DecidableEq

/-- `np.min` over a nonempty list (the source only applies it to nonempty
arrays; the `[]` case is the unreachable default). -/
def npMin : List ℚ → ℚ
  | [] => 0
  | x :: xs => xs.foldl min x

/-- `np.max` over a nonempty list. -/
def npMax : List ℚ → ℚ
  | [] => 0
  | x :: xs => xs.foldl max x

/-- The elevation entry of the raw `elevs` array:
`point[2] if point[2] is not None else -9999` (a NaN elevation is modelled
as `none` as well; like `-9999` it is filtered out by `· > -9000` below). -/
def elevSentinel : Option ℚ → ℚ
  | none => -9999
  | some v => v

/-- `elevs[elevs > -9000]`: the valid elevations that feed `min_elev`/`max_elev`. -/
def validElevs (elevation_grid : List GridPoint) : List ℚ :=
  (elevation_grid.map (fun p => elevSentinel p.elev)).filter (fun e => -9000 < e)

/-- The quantities the normalizer block (lines 109–164) computes once and the
later blocks read. -/
structure ScaleContext where
  min_lon : ℚ
  min_lat : ℚ
  max_lon : ℚ
  max_lat : ℚ
  min_elev : ℚ
  max_elev : ℚ
  x_scale : ℚ
  y_scale : ℚ
  z_scale : ℚ
  model_height_mm : ℚ
  deriving Repr, DecidableEq

/-- The normalizer block of `generate_stl` (lines 109–164), after the
all-elevations-missing case has been excluded.  `cosD` stands for
`lambda d, math.cos(math.radians d)`. -/
def mkScaleContext (cosD : ℚ → ℚ) (elevation_grid : List GridPoint)
    (cfg : Config) : ScaleContext :=
  let lons := elevation_grid.map (fun p => p.lon)
  let lats := elevation_grid.map (fun p => p.lat)
  let min_lon := npMin lons
  let min_lat := npMin lats
  let max_lon := npMax lons
  let max_lat := npMax lats
  let min_elev := npMin (validElevs elevation_grid)
  let max_elev := npMax (validElevs elevation_grid)
  let geo_width := max_lon - min_lon
  let geo_height := max_lat - min_lat
  let center_lat := (min_lat + max_lat) / 2
  let x_scale := cfg.model_width_mm / geo_width
  let longitude_scale_factor := cosD |center_lat|
  let y_scale := x_scale / longitude_scale_factor
  let model_height_mm := geo_height * y_scale
  let elev_range := max_elev - min_elev
  let z_scale :=
    if 0 < elev_range then
      0.1 * cfg.model_width_mm / elev_range * cfg.altitude_multiplier
    else
      1.0 * cfg.altitude_multiplier
  { min_lon := min_lon, min_lat := min_lat, max_lon := max_lon,
    max_lat := max_lat, min_elev := min_elev, max_elev := max_elev,
    x_scale := x_scale, y_scale := y_scale, z_scale := z_scale,
    model_height_mm := model_height_mm }

/-- The grid sample at row `i`, column `j`: `grid_lats[i, j]` etc. come from
`reshape(height, width)` of the flat list, i.e. flat index `i*width + j`. -/
def gridAt (elevation_grid : List GridPoint) (width i j : ℕ) : GridPoint :=
  elevation_grid.getD (i * width + j) default

/-- The terrain vertex emitted for grid position `(i, j)` (lines 233–245):
missing elevation is replaced by `min_elev`, then
`(x, y, z) = ((lon-min_lon)*x_scale, (lat-min_lat)*y_scale, (elev-min_elev)*z_scale)`. -/
def terrainVertex (elevation_grid : List GridPoint) (sc : ScaleContext)
    (width : ℕ) (i j : ℕ) : Vertex :=
  let p := gridAt elevation_grid width i j
  let elev := p.elev.getD sc.min_elev
  ((p.lon - sc.min_lon) * sc.x_scale,
   (p.lat - sc.min_lat) * sc.y_scale,
   (elev - sc.min_elev) * sc.z_scale)

/-- The two faces of cell `(i, j)` (lines 249–258), with
`vertex_index = i*width + j`:
`[v1, v2, v3] = [vi, vi+1, vi+width]` and `[v2, v4, v3] = [vi+1, vi+width+1, vi+width]`. -/
def cellFaces (width i j : ℕ) : List Face :=
  let vi := i * width + j
  [(vi, vi + 1, vi + width), (vi + 1, vi + width + 1, vi + width)]

/-- The vertices appended while processing row `i`: one per column `j`. -/
def rowVertices (elevation_grid : List GridPoint) (sc : ScaleContext)
    (width : ℕ) (i : ℕ) : List Vertex :=
  (List.range width).map (terrainVertex elevation_grid sc width i)

/-- The faces appended while processing row `i`: cells with
`i < height - 1 and j < width - 1` each contribute two triangles, in `j` order. -/
def rowFaces (width height : ℕ) (i : ℕ) : List Face :=
  if i + 1 < height then (List.range (width - 1)).flatMap (cellFaces width i)
  else []

/-- The rows `lo, lo+1, ..., hi-1`, processed in order; used both for one
chunk (`for i in range(chunk_start, chunk_end)`) and for the unchunked
reference implementation. -/
def rowsVertices (elevation_grid : List GridPoint) (sc : ScaleContext)
    (width : ℕ) (lo hi : ℕ) : List Vertex :=
  (List.range' lo (hi - lo)).flatMap (rowVertices elevation_grid sc width)

/-- Faces of rows `lo, ..., hi-1` in order. -/
def rowsFaces (width height : ℕ) (lo hi : ℕ) : List Face :=
  (List.range' lo (hi - lo)).flatMap (rowFaces width height)

/-- The chunk loop of lines 215–260:
`for chunk_start in range(0, height, chunk_size)` processes rows
`chunk_start .. min(chunk_start+chunk_size, height) - 1`.  The guard
`0 < chunk_size` mirrors Python's requirement of a nonzero step
(`chunk_size = min(20, height) ≥ 1` whenever the loop is reached). -/
def chunkVertices (elevation_grid : List GridPoint) (sc : ScaleContext)
    (width height chunk_size : ℕ) (chunk_start : ℕ) : List Vertex :=
  if _h : chunk_start < height ∧ 0 < chunk_size then
    rowsVertices elevation_grid sc width chunk_start
        (min (chunk_start + chunk_size) height) ++
      chunkVertices elevation_grid sc width height chunk_size
        (chunk_start + chunk_size)
  else []
termination_by height - chunk_start
decreasing_by omega

/-- The faces accumulated by the chunk loop of lines 215–260. -/
def chunkFaces (width height chunk_size : ℕ) (chunk_start : ℕ) : List Face :=
  if _h : chunk_start < height ∧ 0 < chunk_size then
    rowsFaces width height chunk_start (min (chunk_start + chunk_size) height) ++
      chunkFaces width height chunk_size (chunk_start + chunk_size)
  else []
termination_by height - chunk_start
decreasing_by omega

/-- Terrain vertices as the source builds them: chunked with
`chunk_size = min(20, height)`. -/
def terrainVertices (elevation_grid : List GridPoint) (sc : ScaleContext)
    (width height : ℕ) : List Vertex :=
  chunkVertices elevation_grid sc width height (min 20 height) 0

/-- Terrain faces as the source builds them: chunked with
`chunk_size = min(20, height)`. -/
def terrainFaces (width height : ℕ) : List Face :=
  chunkFaces width height (min 20 height) 0

/-- Reference (unchunked) terrain vertices: one loop over rows `0..height-1`. -/
def terrainVerticesSimple (elevation_grid : List GridPoint) (sc : ScaleContext)
    (width height : ℕ) : List Vertex :=
  rowsVertices elevation_grid sc width 0 height

/-- Reference (unchunked) terrain faces. -/
def terrainFacesSimple (width height : ℕ) : List Face :=
  rowsFaces width height 0 height

/-- The four base corner vertices at `z = -base_thickness_mm` (lines 299–304). -/
def baseVertices (model_width_mm model_height_mm base_z : ℚ) : List Vertex :=
  [(0, 0, base_z), (model_width_mm, 0, base_z),
   (0, model_height_mm, base_z), (model_width_mm, model_height_mm, base_z)]

/-- The two base faces (lines 310–315), given `base_vertex_start`. -/
def baseFaces (bvs : ℕ) : List Face :=
  [(bvs, bvs + 1, bvs + 2), (bvs + 1, bvs + 3, bvs + 2)]

/-- The perimeter corner pairs walked by the wall loop (lines 331–350):
`perimeter_points = [0, width-1, height*width-1, (height-1)*width]`, each
point paired with its cyclic successor. -/
def perimeterPairs (width height : ℕ) : List (ℕ × ℕ) :=
  [(0, width - 1), (width - 1, height * width - 1),
   (height * width - 1, (height - 1) * width), ((height - 1) * width, 0)]

/-- One iteration of the wall loop (lines 348–365): read the two terrain
corner positions, append their base-height copies at indices
`b1 = len(vertices)` and `b2 = b1 + 1`, and append the two wall triangles. -/
def wallStep (base_z : ℚ) (acc : List Vertex × List Face) (pq : ℕ × ℕ) :
    List Vertex × List Face :=
  let v1_pos := acc.1.getD pq.1 default
  let v2_pos := acc.1.getD pq.2 default
  let b1 := acc.1.length
  (acc.1 ++ [(v1_pos.1, v1_pos.2.1, base_z), (v2_pos.1, v2_pos.2.1, base_z)],
   acc.2 ++ [(pq.1, pq.2, b1), (pq.2, b1 + 1, b1)])

/-- The whole wall loop. -/
def addWalls (base_z : ℚ) (width height : ℕ) (acc : List Vertex × List Face) :
    List Vertex × List Face :=
  (perimeterPairs width height).foldl (wallStep base_z) acc

/-- `range(0, n, stride)` for a positive `stride`: the retained indices
`0, stride, 2*stride, ...` below `n`. -/
def strideIndices (n stride : ℕ) : List ℕ :=
  (List.range ((n + stride - 1) / stride)).map (fun k => k * stride)

/-- `stride = max(1, len(track_points) // max_track_points)` with
`max_track_points = 200` (lines 381–382). -/
def trackStride (track_points : List TrackPoint) : ℕ :=
  max 1 (track_points.length / 200)

/-- The downsampled track (lines 383–385): every `stride`-th point. -/
def sampledTrack (track_points : List TrackPoint) : List TrackPoint :=
  (strideIndices track_points.length (trackStride track_points)).map
    (fun i => track_points.getD i default)

/-- The downsampled elevations (lines 386–389):
`track_elevations[i] if i < len(track_elevations) else None`, for the same
stride indices `i`. -/
def sampledElevations (track_points : List TrackPoint)
    (track_elevations : List (Option ℚ)) : List (Option ℚ) :=
  (strideIndices track_points.length (trackStride track_points)).map
    (fun i => if i < track_elevations.length then track_elevations.getD i none
              else none)

/-- Elevation resolution for the retained point of index `k` (lines 402–407):
`sampled_elevations[k] if k < len(sampled_elevations) and
sampled_elevations[k] is not None else min_elev`. -/
def resolveTrackElev (ses : List (Option ℚ)) (min_elev : ℚ) (k : ℕ) : ℚ :=
  if k < ses.length ∧ ses.getD k none ≠ none then (ses.getD k none).getD min_elev
  else min_elev

/-- The projected track vertex for retained point `k` (lines 397–414). -/
def trackVertex (sc : ScaleContext) (path_elevation_mm : ℚ)
    (st : List TrackPoint) (ses : List (Option ℚ)) (k : ℕ) : Vertex :=
  let point := st.getD k default
  let elev := resolveTrackElev ses sc.min_elev k
  ((point.longitude - sc.min_lon) * sc.x_scale,
   (point.latitude - sc.min_lat) * sc.y_scale,
   (elev - sc.min_elev) * sc.z_scale + path_elevation_mm)

/-- The path-segment loop (lines 420–428): for each consecutive pair of
projected track vertices, append both as new mesh vertices and one triangle
`[v1, v2, base_vertex_start]`. -/
def addSegments (tv : List Vertex) (base_vertex_start : ℕ)
    (acc : List Vertex × List Face) : List Vertex × List Face :=
  (List.range (tv.length - 1)).foldl
    (fun a i =>
      (a.1 ++ [tv.getD i default, tv.getD (i + 1) default],
       a.2 ++ [(a.1.length, a.1.length + 1, base_vertex_start)]))
    acc

/-- The track block (lines 379–438): skipped entirely (no vertices, no faces,
no error) when `len(track_points) < 2`. -/
def addTrack (sc : ScaleContext) (path_elevation_mm : ℚ)
    (track_points : List TrackPoint) (track_elevations : List (Option ℚ))
    (base_vertex_start : ℕ) (acc : List Vertex × List Face) :
    List Vertex × List Face :=
  if 2 ≤ track_points.length then
    let st := sampledTrack track_points
    let ses := sampledElevations track_points track_elevations
    let tv := (List.range st.length).map (trackVertex sc path_elevation_mm st ses)
    addSegments tv base_vertex_start acc
  else acc

/-- The geometry pipeline after validation: terrain, base, walls, track, in
source order. -/
def buildMesh (cosD : ℚ → ℚ) (elevation_grid : List GridPoint)
    (track_points : List TrackPoint) (track_elevations : List (Option ℚ))
    (width height : ℕ) (cfg : Config) : List Vertex × List Face :=
  let sc := mkScaleContext cosD elevation_grid cfg
  let vs0 := terrainVertices elevation_grid sc width height
  let fs0 := terrainFaces width height
  let base_z := -cfg.base_thickness_mm
  let base_vertex_start := vs0.length
  let vs1 := vs0 ++ baseVertices cfg.model_width_mm sc.model_height_mm base_z
  let fs1 := fs0 ++ baseFaces base_vertex_start
  let acc2 := addWalls base_z width height (vs1, fs1)
  addTrack sc cfg.path_elevation_mm track_points track_elevations
    base_vertex_start acc2

/-- `generate_stl` up to (but not including) serialization: the validations of
lines 84–87, the all-elevations-missing failure of lines 113/172–174
(`np.min` over the empty filtered array raises, re-raised as `ValueError`),
then the geometry pipeline.  Note there is no `geo_width == 0` guard: numpy
float division by zero warns and yields `inf` without raising, so a
degenerate extent reaches the geometry pipeline (modelled by rational
division, where division by zero yields `0`; either way, no error). -/
def generate_stl (cosD : ℚ → ℚ) (elevation_grid : List GridPoint)
    (track_points : List TrackPoint) (track_elevations : List (Option ℚ))
    (width height : ℕ) (cfg : Config) :
    Except GenError (List Vertex × List Face) :=
  if elevation_grid = [] ∨ elevation_grid.length ≠ width * height then
    .error .invalidGrid
  else if track_points = [] then .error .missingTrack
  else if validElevs elevation_grid = [] then .error .emptyElevationRange
  else .ok (buildMesh cosD elevation_grid track_points track_elevations
    width height cfg)

/-- The per-call environment the serialization step can observe: the random
temporary-file path chosen by `tempfile.NamedTemporaryFile` and the wall
clock.  The geometry pipeline never reads either. -/
structure Env where
  tmp_path : String
  now : String
  deriving Repr, DecidableEq

/-- Modelled from the spec: the Mesh Serializer (§4.5) is realised in the
source by the external `numpy-stl` library (`mesh.Mesh.save`), whose code is
not under `src/`.  Per the spec it emits, facet by facet in face order, a
normal vector (zero here) and the three vertex coordinates, as text; the
output contains no file path and no timestamp. -/
def serializeFacet (vs : List Vertex) (f : Face) : List String :=
  let v1 := vs.getD f.1 default
  let v2 := vs.getD f.2.1 default
  let v3 := vs.getD f.2.2 default
  ["facet normal 0 0 0", "outer loop",
   "vertex " ++ toString v1.1 ++ " " ++ toString v1.2.1 ++ " " ++ toString v1.2.2,
   "vertex " ++ toString v2.1 ++ " " ++ toString v2.2.1 ++ " " ++ toString v2.2.2,
   "vertex " ++ toString v3.1 ++ " " ++ toString v3.2.1 ++ " " ++ toString v3.2.2,
   "endloop", "endfacet"]

/-- Modelled from the spec: the full serialized document, a pure function of
the vertex and face lists. -/
def serializeMesh (vs : List Vertex) (fs : List Face) : List String :=
  "solid model" :: fs.flatMap (serializeFacet vs) ++ ["endsolid model"]

/-- The whole generation call including serialization.  The source saves the
mesh to `env.tmp_path` and reads the same bytes back (lines 464–478); the
round trip returns exactly what the serializer wrote, so the output is the
serializer applied to the mesh. -/
def generateBytes (env : Env) (cosD : ℚ → ℚ) (elevation_grid : List GridPoint)
    (track_points : List TrackPoint) (track_elevations : List (Option ℚ))
    (width height : ℕ) (cfg : Config) : Except GenError (List String) :=
  let _ := env
  (generate_stl cosD elevation_grid track_points track_elevations width height
    cfg).map (fun m => serializeMesh m.1 m.2)

/-- `math.radians d = d * pi / 180`, over `ℝ` (for the cosine-correction claim). -/
noncomputable def radiansR (d : ℝ) : ℝ :=
  d * Real.pi / 180

/-- Line 139: `longitude_scale_factor = math.cos(math.radians(abs(center_lat)))`. -/
noncomputable def longitudeScaleFactor (center_lat : ℝ) : ℝ :=
  Real.cos (radiansR |center_lat|)

/-- Line 134: `x_scale = model_width_mm / geo_width`. -/
noncomputable def xScaleR (model_width_mm geo_width : ℝ) : ℝ :=
  model_width_mm / geo_width

/-- Line 140: `y_scale = x_scale / longitude_scale_factor`. -/
noncomputable def yScaleR (x_scale center_lat : ℝ) : ℝ :=
  x_scale / longitudeScaleFactor center_lat

/-- Every face of the mesh refers only to vertices that exist in the final
vertex list (so `vertices[face[j]]` at serialization time is in bounds). -/
def facesBounded (m : List Vertex × List Face) : Prop :=
  ∀ f ∈ m.2, f.1 < m.1.length ∧ f.2.1 < m.1.length ∧ f.2.2 < m.1.length

/-! Concrete example inputs, used by the witness theorems. -/

/-- A 3×3 example grid with one missing elevation at position `(1, 1)`. -/
def exGrid : List GridPoint :=
  [⟨0, 0, some 10⟩, ⟨0, 1, some 20⟩, ⟨0, 2, some 30⟩,
   ⟨1, 0, some 15⟩, ⟨1, 1, none⟩, ⟨1, 2, some 35⟩,
   ⟨2, 0, some 12⟩, ⟨2, 1, some 22⟩, ⟨2, 2, some 40⟩]

/-- A 2×2 example grid with no missing elevations. -/
def exGridFull : List GridPoint :=
  [⟨0, 0, some 10⟩, ⟨0, 1, some 20⟩, ⟨1, 0, some 15⟩, ⟨1, 1, some 25⟩]

/-- The default keyword configuration of `generate_stl`. -/
def cfgDefault : Config :=
  ⟨2, 100, 1, 1/2, 1/2⟩

/-- A two-point example track. -/
def exTrack : List TrackPoint :=
  [⟨0, 0⟩, ⟨2, 2⟩]

/-- A one-point example track (passes validation, too short for a path). -/
def exTrackOne : List TrackPoint :=
  [⟨0, 0⟩]

/-- A width-1, height-2 grid whose two samples share the longitude `5`:
`geo_width = 0`. -/
def gridDegenerate : List GridPoint :=
  [⟨0, 5, some 10⟩, ⟨1, 5, some 20⟩]

/-- An example `ScaleContext` for witness instantiations. -/
def exScale : ScaleContext :=
  mkScaleContext (fun _ => 1) exGrid cfgDefault

/-! ## Helper lemmas -/

theorem rowsVertices_split (g : List GridPoint) (sc : ScaleContext) (w : ℕ)
    {lo mid hi : ℕ} (h1 : lo ≤ mid) (h2 : mid ≤ hi) :
    rowsVertices g sc w lo mid ++ rowsVertices g sc w mid hi =
      rowsVertices g sc w lo hi := by
  unfold rowsVertices
  rw [← List.flatMap_append]
  congr 1
  have e1 : lo + 1 * (mid - lo) = mid := by omega
  have e2 : hi - mid + (mid - lo) = hi - lo := by omega
  have h := List.range'_append lo (mid - lo) (hi - mid) 1
  rw [e1, e2] at h
  exact h

theorem rowsFaces_split (w h : ℕ) {lo mid hi : ℕ} (h1 : lo ≤ mid)
    (h2 : mid ≤ hi) :
    rowsFaces w h lo mid ++ rowsFaces w h mid hi = rowsFaces w h lo hi := by
  unfold rowsFaces
  rw [← List.flatMap_append]
  congr 1
  have e1 : lo + 1 * (mid - lo) = mid := by omega
  have e2 : hi - mid + (mid - lo) = hi - lo := by omega
  have hr := List.range'_append lo (mid - lo) (hi - mid) 1
  rw [e1, e2] at hr
  exact hr

theorem rowsVertices_nil (g : List GridPoint) (sc : ScaleContext) (w : ℕ)
    {lo hi : ℕ} (h : hi ≤ lo) : rowsVertices g sc w lo hi = [] := by
  unfold rowsVertices
  rw [Nat.sub_eq_zero_of_le h]
  rfl

theorem rowsFaces_nil (w h : ℕ) {lo hi : ℕ} (hle : hi ≤ lo) :
    rowsFaces w h lo hi = [] := by
  unfold rowsFaces
  rw [Nat.sub_eq_zero_of_le hle]
  rfl

theorem chunkVertices_eq (g : List GridPoint) (sc : ScaleContext)
    (w h cs : ℕ) (hcs : 0 < cs) (start : ℕ) :
    chunkVertices g sc w h cs start = rowsVertices g sc w start h := by
  rw [chunkVertices]
  by_cases hlt : start < h
  · rw [dif_pos ⟨hlt, hcs⟩, chunkVertices_eq g sc w h cs hcs (start + cs)]
    by_cases hle : start + cs ≤ h
    · rw [min_eq_left hle]
      exact rowsVertices_split g sc w (by omega) hle
    · rw [min_eq_right (by omega), rowsVertices_nil g sc w (by omega : h ≤ start + cs),
        List.append_nil]
  · rw [dif_neg (fun hc => hlt hc.1), rowsVertices_nil g sc w (by omega)]
termination_by h - start
decreasing_by omega

theorem chunkFaces_eq (w h cs : ℕ) (hcs : 0 < cs) (start : ℕ) :
    chunkFaces w h cs start = rowsFaces w h start h := by
  rw [chunkFaces]
  by_cases hlt : start < h
  · rw [dif_pos ⟨hlt, hcs⟩, chunkFaces_eq w h cs hcs (start + cs)]
    by_cases hle : start + cs ≤ h
    · rw [min_eq_left hle]
      exact rowsFaces_split w h (by omega) hle
    · rw [min_eq_right (by omega), rowsFaces_nil w h (by omega : h ≤ start + cs),
        List.append_nil]
  · rw [dif_neg (fun hc => hlt hc.1), rowsFaces_nil w h (by omega)]
termination_by h - start
decreasing_by omega

theorem terrainVertices_eq_simple (g : List GridPoint) (sc : ScaleContext)
    (w h : ℕ) (hh : 1 ≤ h) :
    terrainVertices g sc w h = terrainVerticesSimple g sc w h :=
  chunkVertices_eq g sc w h (min 20 h) (by omega) 0

theorem terrainFaces_eq_simple (w h : ℕ) (hh : 1 ≤ h) :
    terrainFaces w h = terrainFacesSimple w h :=
  chunkFaces_eq w h (min 20 h) (by omega) 0

theorem flatMap_const_length {α : Type} (l : List ℕ) (f : ℕ → List α) (n : ℕ)
    (hf : ∀ i, (f i).length = n) : (l.flatMap f).length = l.length * n := by
  induction l with
  | nil => simp
  | cons a t ih =>
    simp only [List.flatMap_cons, List.length_append, hf, ih, List.length_cons]
    ring

theorem rowVertices_length (g : List GridPoint) (sc : ScaleContext) (w i : ℕ) :
    (rowVertices g sc w i).length = w := by
  simp [rowVertices]

theorem rowsVertices_length (g : List GridPoint) (sc : ScaleContext)
    (w lo hi : ℕ) : (rowsVertices g sc w lo hi).length = (hi - lo) * w := by
  unfold rowsVertices
  rw [flatMap_const_length _ _ w (rowVertices_length g sc w), List.length_range']

theorem rowsVertices_cons (g : List GridPoint) (sc : ScaleContext) (w : ℕ)
    {i h : ℕ} (hi : i < h) :
    rowsVertices g sc w i h =
      rowVertices g sc w i ++ rowsVertices g sc w (i + 1) h := by
  unfold rowsVertices
  rw [show h - i = (h - (i + 1)) + 1 by omega, List.range'_succ, List.flatMap_cons]

theorem terrainVerticesSimple_get (g : List GridPoint) (sc : ScaleContext)
    {w h i j : ℕ} (hi : i < h) (hj : j < w) :
    (terrainVerticesSimple g sc w h)[i * w + j]? =
      some (terrainVertex g sc w i j) := by
  unfold terrainVerticesSimple
  have hlen : (rowsVertices g sc w 0 i).length = i * w := by
    rw [rowsVertices_length, Nat.sub_zero]
  rw [← rowsVertices_split g sc w (Nat.zero_le i) (le_of_lt hi),
    List.getElem?_append_right (by rw [hlen]; omega), hlen,
    Nat.add_sub_cancel_left, rowsVertices_cons g sc w hi,
    List.getElem?_append_left (by rw [rowVertices_length]; omega)]
  unfold rowVertices
  rw [List.getElem?_map, List.getElem?_range hj]
  rfl

/-- The two cell triangles rewritten with `v(i+1, j) = (i+1)*w + j`. -/
theorem cellFaces_eq (w i j : ℕ) :
    cellFaces w i j =
      [(i * w + j, i * w + j + 1, (i + 1) * w + j),
       (i * w + j + 1, (i + 1) * w + j + 1, (i + 1) * w + j)] := by
  simp only [cellFaces]
  have h1 : i * w + j + w = (i + 1) * w + j := by ring
  rw [h1]

/-- Closed form of the unchunked terrain faces: rows `0..h-2`, cells
`0..w-2`, two triangles each, in that order. -/
theorem terrainFacesSimple_eq (w h : ℕ) :
    terrainFacesSimple w h =
      (List.range (h - 1)).flatMap (fun i =>
        (List.range (w - 1)).flatMap (fun j =>
          [(i * w + j, i * w + j + 1, (i + 1) * w + j),
           (i * w + j + 1, (i + 1) * w + j + 1, (i + 1) * w + j)])) := by
  unfold terrainFacesSimple rowsFaces
  rw [Nat.sub_zero]
  cases h with
  | zero => rfl
  | succ n =>
    rw [show List.range' 0 (n + 1) = List.range' 0 n ++ [0 + 1 * n] from
        List.range'_concat 0 n,
      List.flatMap_append]
    simp only [Nat.zero_add, Nat.one_mul, List.flatMap_cons, List.flatMap_nil,
      List.append_nil]
    have hlast : rowFaces w (n + 1) n = [] := by
      unfold rowFaces
      rw [if_neg (by omega)]
    rw [hlast, List.append_nil, Nat.succ_sub_one, ← List.range_eq_range' n]
    apply List.flatMap_congr
    intro i hi
    have hilt : i < n := List.mem_range.mp hi
    unfold rowFaces
    rw [if_pos (by omega)]
    apply List.flatMap_congr
    intro j _
    exact cellFaces_eq w i j

/-! ## Claims -/

/-- C3: processing terrain rows in chunks of size `min(20, height)` emits
exactly the same vertex sequence and the same face sequence as the
non-chunked implementation that iterates rows `0..height-1` in one loop. -/
theorem chunking_is_pure_refinement (g : List GridPoint) (sc : ScaleContext)
    (w h : ℕ) (hh : 1 ≤ h) :
    terrainVertices g sc w h = terrainVerticesSimple g sc w h ∧
      terrainFaces w h = terrainFacesSimple w h :=
  ⟨terrainVertices_eq_simple g sc w h hh, terrainFaces_eq_simple w h hh⟩

/-- Witness for C3 at a concrete 3×3 grid. -/
theorem chunking_is_pure_refinement_witness :
    1 ≤ 3 ∧
      (terrainVertices exGrid exScale 3 3 = terrainVerticesSimple exGrid exScale 3 3 ∧
        terrainFaces 3 3 = terrainFacesSimple 3 3) :=
  ⟨by decide, chunking_is_pure_refinement exGrid exScale 3 3 (by decide)⟩

/-- C2: for a `w × h` grid with no missing elevations (`w, h ≥ 1`), the
terrain mesher produces exactly `w*h` vertices and `2*(w-1)*(h-1)` faces,
the faces being the two triangles
`(v(i,j), v(i,j+1), v(i+1,j))`, `(v(i,j+1), v(i+1,j+1), v(i+1,j))` of each
cell with `i < h-1`, `j < w-1`, with `v(i,j) = i*w + j`, in that order. -/
theorem terrain_mesh_counts_and_faces (cosD : ℚ → ℚ) (g : List GridPoint)
    (cfg : Config) (w h : ℕ) (_hw : 1 ≤ w) (hh : 1 ≤ h)
    (_hfull : ∀ p ∈ g, p.elev ≠ none) :
    (terrainVertices g (mkScaleContext cosD g cfg) w h).length = w * h ∧
      (terrainFaces w h).length = 2 * (w - 1) * (h - 1) ∧
      terrainFaces w h =
        (List.range (h - 1)).flatMap (fun i =>
          (List.range (w - 1)).flatMap (fun j =>
            [(i * w + j, i * w + j + 1, (i + 1) * w + j),
             (i * w + j + 1, (i + 1) * w + j + 1, (i + 1) * w + j)])) := by
  refine ⟨?_, ?_, ?_⟩
  · rw [terrainVertices_eq_simple _ _ _ _ hh]
    unfold terrainVerticesSimple
    rw [rowsVertices_length, Nat.sub_zero, Nat.mul_comm]
  · rw [terrainFaces_eq_simple w h hh, terrainFacesSimple_eq]
    have hinner : ∀ i : ℕ,
        ((List.range (w - 1)).flatMap (fun j =>
          [((i * w + j : ℕ), i * w + j + 1, (i + 1) * w + j),
           (i * w + j + 1, (i + 1) * w + j + 1, (i + 1) * w + j)])).length =
          (w - 1) * 2 := by
      intro i
      rw [flatMap_const_length _
          (fun j => [((i * w + j : ℕ), i * w + j + 1, (i + 1) * w + j),
            (i * w + j + 1, (i + 1) * w + j + 1, (i + 1) * w + j)])
          2 (fun j => rfl), List.length_range]
    rw [flatMap_const_length _ _ ((w - 1) * 2) hinner, List.length_range]
    ring
  · rw [terrainFaces_eq_simple w h hh, terrainFacesSimple_eq]

/-- Witness for C2 at a concrete full 2×2 grid. -/
theorem terrain_mesh_counts_and_faces_witness :
    (1 ≤ 2 ∧ ∀ p ∈ exGridFull, p.elev ≠ none) ∧
      ((terrainVertices exGridFull
          (mkScaleContext (fun _ => 1) exGridFull cfgDefault) 2 2).length = 2 * 2 ∧
        (terrainFaces 2 2).length = 2 * (2 - 1) * (2 - 1) ∧
        terrainFaces 2 2 =
          (List.range (2 - 1)).flatMap (fun i =>
            (List.range (2 - 1)).flatMap (fun j =>
              [(i * 2 + j, i * 2 + j + 1, (i + 1) * 2 + j),
               (i * 2 + j + 1, (i + 1) * 2 + j + 1, (i + 1) * 2 + j)]))) :=
  ⟨⟨by decide, by decide⟩,
    terrain_mesh_counts_and_faces (fun _ => 1) exGridFull cfgDefault 2 2
      (by decide) (by decide) (by decide)⟩

/-- C1: the terrain mesher emits for grid position `(i, j)` the vertex with
index `i*width + j` in the (row-major, append-only) vertex list, whose
coordinates are `((lon-min_lon)*x_scale, (lat-min_lat)*y_scale,
(elev-min_elev)*z_scale)` with a missing (`None`/NaN) elevation first
replaced by `min_elev`; all coordinates are rational values of the inputs
(no NaN can be emitted). -/
theorem terrain_vertex_formula (cosD : ℚ → ℚ) (g : List GridPoint)
    (cfg : Config) {w h i j : ℕ} (hi : i < h) (hj : j < w) :
    (terrainVertices g (mkScaleContext cosD g cfg) w h).length = h * w ∧
      (terrainVertices g (mkScaleContext cosD g cfg) w h)[i * w + j]? =
        some (((gridAt g w i j).lon - (mkScaleContext cosD g cfg).min_lon) *
                (mkScaleContext cosD g cfg).x_scale,
              ((gridAt g w i j).lat - (mkScaleContext cosD g cfg).min_lat) *
                (mkScaleContext cosD g cfg).y_scale,
              ((gridAt g w i j).elev.getD (mkScaleContext cosD g cfg).min_elev -
                  (mkScaleContext cosD g cfg).min_elev) *
                (mkScaleContext cosD g cfg).z_scale) := by
  constructor
  · rw [terrainVertices_eq_simple _ _ _ _ (by omega)]
    unfold terrainVerticesSimple
    rw [rowsVertices_length, Nat.sub_zero]
  · rw [terrainVertices_eq_simple _ _ _ _ (by omega),
      terrainVerticesSimple_get _ _ hi hj]
    rfl

/-- All terrain face indices are below `h*w`, the terrain vertex count. -/
theorem terrainFaces_bounded (w h : ℕ) (hh : 1 ≤ h) :
    ∀ f ∈ terrainFaces w h, f.1 < h * w ∧ f.2.1 < h * w ∧ f.2.2 < h * w := by
  intro f hf
  rw [terrainFaces_eq_simple w h hh, terrainFacesSimple_eq,
    List.mem_flatMap] at hf
  obtain ⟨i, hi, hf⟩ := hf
  rw [List.mem_flatMap] at hf
  obtain ⟨j, hj, hf⟩ := hf
  rw [List.mem_range] at hi
  rw [List.mem_range] at hj
  have e1 : (i + 1) * w = i * w + w := by ring
  have e2 : (i + 1) * w ≤ (h - 1) * w := Nat.mul_le_mul_right _ (by omega)
  have e3 : (h - 1) * w + w = h * w := by
    have hh1 : h - 1 + 1 = h := by omega
    calc (h - 1) * w + w = (h - 1 + 1) * w := by ring
      _ = h * w := by rw [hh1]
  simp only [List.mem_cons, List.not_mem_nil, or_false] at hf
  rcases hf with rfl | rfl <;> refine ⟨?_, ?_, ?_⟩ <;> dsimp only <;> omega

/-- One wall-loop iteration preserves face-index boundedness and grows the
vertex list by 2. -/
theorem wallStep_bounded (bz : ℚ) (acc : List Vertex × List Face) (pq : ℕ × ℕ)
    (hacc : facesBounded acc) (h1 : pq.1 < acc.1.length)
    (h2 : pq.2 < acc.1.length) :
    facesBounded (wallStep bz acc pq) ∧
      (wallStep bz acc pq).1.length = acc.1.length + 2 := by
  constructor
  · intro f hf
    simp only [wallStep, List.mem_append, List.mem_cons, List.not_mem_nil,
      or_false] at hf
    simp only [wallStep, List.length_append, List.length_cons,
      List.length_nil]
    rcases hf with hf | rfl | rfl
    · have hb := hacc f hf
      exact ⟨by omega, by omega, by omega⟩
    · exact ⟨by dsimp only; omega, by dsimp only; omega, by dsimp only; omega⟩
    · exact ⟨by dsimp only; omega, by dsimp only; omega, by dsimp only; omega⟩
  · simp [wallStep]

/-- The four wall-loop iterations preserve face-index boundedness and add
exactly 8 vertices, provided the four perimeter corner indices are in
bounds. -/
theorem addWalls_bounded (bz : ℚ) (w h : ℕ) (acc : List Vertex × List Face)
    (hacc : facesBounded acc) (h0 : 0 < acc.1.length)
    (h1 : w - 1 < acc.1.length) (h2 : h * w - 1 < acc.1.length)
    (h3 : (h - 1) * w < acc.1.length) :
    facesBounded (addWalls bz w h acc) ∧
      (addWalls bz w h acc).1.length = acc.1.length + 8 := by
  have s1 := wallStep_bounded bz acc (0, w - 1) hacc h0 h1
  have s2 := wallStep_bounded bz _ (w - 1, h * w - 1) s1.1
    (by rw [s1.2]; omega) (by rw [s1.2]; omega)
  have s3 := wallStep_bounded bz _ (h * w - 1, (h - 1) * w) s2.1
    (by rw [s2.2, s1.2]; omega) (by rw [s2.2, s1.2]; omega)
  have s4 := wallStep_bounded bz _ ((h - 1) * w, 0) s3.1
    (by rw [s3.2, s2.2, s1.2]; omega) (by rw [s3.2, s2.2, s1.2]; omega)
  refine ⟨?_, ?_⟩
  · simpa only [addWalls, perimeterPairs, List.foldl_cons, List.foldl_nil]
      using s4.1
  · simp only [addWalls, perimeterPairs, List.foldl_cons, List.foldl_nil]
    rw [s4.2, s3.2, s2.2, s1.2]

/-- The path-segment loop preserves face-index boundedness as long as
`base_vertex_start` is in bounds. -/
theorem addSegments_bounded (tv : List Vertex) (bvs : ℕ)
    (acc : List Vertex × List Face) (hacc : facesBounded acc)
    (hb : bvs < acc.1.length) : facesBounded (addSegments tv bvs acc) := by
  unfold addSegments
  generalize List.range (tv.length - 1) = l
  induction l generalizing acc with
  | nil => exact hacc
  | cons a t ih =>
    rw [List.foldl_cons]
    refine ih _ ?_ (by simp only [List.length_append]; omega)
    intro f hf
    simp only [List.mem_append, List.mem_cons, List.not_mem_nil, or_false]
      at hf
    simp only [List.length_append, List.length_cons, List.length_nil]
    rcases hf with hf | rfl
    · have hbd := hacc f hf
      exact ⟨by omega, by omega, by omega⟩
    · exact ⟨by dsimp only; omega, by dsimp only; omega, by dsimp only; omega⟩

/-- The track block preserves face-index boundedness. -/
theorem addTrack_bounded (sc : ScaleContext) (pe : ℚ)
    (tp : List TrackPoint) (te : List (Option ℚ)) (bvs : ℕ)
    (acc : List Vertex × List Face) (hacc : facesBounded acc)
    (hb : bvs < acc.1.length) : facesBounded (addTrack sc pe tp te bvs acc) := by
  unfold addTrack
  split
  · exact addSegments_bounded _ _ _ hacc hb
  · exact hacc

/-- Length of the terrain vertex list. -/
theorem terrainVertices_length (g : List GridPoint) (sc : ScaleContext)
    (w h : ℕ) (hh : 1 ≤ h) :
    (terrainVertices g sc w h).length = h * w := by
  rw [terrainVertices_eq_simple g sc w h hh]
  unfold terrainVerticesSimple
  rw [rowsVertices_length, Nat.sub_zero]

/-- C9: every vertex index appearing in any face emitted during one
generation call — terrain, base, wall or track faces — is strictly below the
final vertex count (terrain faces may reference `v(i+1,j)`/`v(i+1,j+1)`
before those vertices are appended, but all indices are in bounds once the
mesh is complete), so the per-face vertex lookup at serialization never
indexes out of bounds. -/
theorem all_face_indices_in_bounds (cosD : ℚ → ℚ) (g : List GridPoint)
    (tp : List TrackPoint) (te : List (Option ℚ)) (w h : ℕ) (cfg : Config)
    (hw : 1 ≤ w) (hh : 1 ≤ h) :
    facesBounded (buildMesh cosD g tp te w h cfg) := by
  have hwle : w ≤ h * w := Nat.le_mul_of_pos_left w (by omega)
  have hsub : (h - 1) * w + w = h * w := by
    have hh1 : h - 1 + 1 = h := by omega
    calc (h - 1) * w + w = (h - 1 + 1) * w := by ring
      _ = h * w := by rw [hh1]
  simp only [buildMesh]
  set sc := mkScaleContext cosD g cfg with hsc
  have hlen0 := terrainVertices_length g sc w h (by omega)
  have hbase : facesBounded
      (terrainVertices g sc w h ++
        baseVertices cfg.model_width_mm sc.model_height_mm
          (-cfg.base_thickness_mm),
       terrainFaces w h ++ baseFaces (terrainVertices g sc w h).length) := by
    intro f hf
    simp only [List.mem_append] at hf
    simp only [List.length_append, baseVertices, List.length_cons,
      List.length_nil]
    rcases hf with hf | hf
    · have hb := terrainFaces_bounded w h (by omega) f hf
      exact ⟨by omega, by omega, by omega⟩
    · simp only [baseFaces, List.mem_cons, List.not_mem_nil, or_false] at hf
      rcases hf with rfl | rfl <;>
        exact ⟨by dsimp only; omega, by dsimp only; omega,
          by dsimp only; omega⟩
  have hwalls := addWalls_bounded (-cfg.base_thickness_mm) w h _ hbase
    (by
      simp only [List.length_append, baseVertices, List.length_cons,
        List.length_nil]
      omega)
    (by
      simp only [List.length_append, baseVertices, List.length_cons,
        List.length_nil]
      omega)
    (by
      simp only [List.length_append, baseVertices, List.length_cons,
        List.length_nil]
      omega)
    (by
      simp only [List.length_append, baseVertices, List.length_cons,
        List.length_nil]
      omega)
  apply addTrack_bounded _ _ _ _ _ _ hwalls.1
  rw [hwalls.2]
  simp only [List.length_append, baseVertices, List.length_cons,
    List.length_nil]
  omega

/-- Witness for C9 at a concrete 3×3 grid with a two-point track. -/
theorem all_face_indices_in_bounds_witness :
    (1 ≤ 3 ∧ 1 ≤ 3) ∧
      facesBounded (buildMesh (fun _ => 1) exGrid exTrack
        [some 11, some 12] 3 3 cfgDefault) :=
  ⟨⟨by decide, by decide⟩,
    all_face_indices_in_bounds (fun _ => 1) exGrid exTrack
      [some 11, some 12] 3 3 cfgDefault (by decide) (by decide)⟩

/-- Witness for C1 at the missing-elevation sample `(1, 1)` of the 3×3 grid. -/
theorem terrain_vertex_formula_witness :
    (1 < 3 ∧ 1 < 3) ∧
      ((terrainVertices exGrid (mkScaleContext (fun _ => 1) exGrid cfgDefault)
          3 3).length = 3 * 3 ∧
        (terrainVertices exGrid (mkScaleContext (fun _ => 1) exGrid cfgDefault)
            3 3)[1 * 3 + 1]? =
          some (((gridAt exGrid 3 1 1).lon -
                  (mkScaleContext (fun _ => 1) exGrid cfgDefault).min_lon) *
                  (mkScaleContext (fun _ => 1) exGrid cfgDefault).x_scale,
                ((gridAt exGrid 3 1 1).lat -
                  (mkScaleContext (fun _ => 1) exGrid cfgDefault).min_lat) *
                  (mkScaleContext (fun _ => 1) exGrid cfgDefault).y_scale,
                ((gridAt exGrid 3 1 1).elev.getD
                    (mkScaleContext (fun _ => 1) exGrid cfgDefault).min_elev -
                  (mkScaleContext (fun _ => 1) exGrid cfgDefault).min_elev) *
                  (mkScaleContext (fun _ => 1) exGrid cfgDefault).z_scale)) :=
  ⟨⟨by decide, by decide⟩,
    terrain_vertex_formula (fun _ => 1) exGrid cfgDefault (by decide) (by decide)⟩

/-- C4 (against the source): a grid all of whose samples share one longitude
(`geo_width = max_lon - min_lon = 0`) is NOT rejected.  The source has no
`DegenerateExtentError` guard: `model_width_mm / geo_width` is numpy float
division, which on a zero divisor emits only a `RuntimeWarning` and yields
`inf`, so generation proceeds and returns output (here: the division yields
the junk value `0` and generation likewise returns `.ok`).  The spec demands
the guard and notes the source lacks it. -/
theorem degenerate_extent_not_rejected :
    (∃ m, generate_stl (fun _ => 1) gridDegenerate exTrack
        [some 10, some 20] 1 2 cfgDefault = Except.ok m) ∧
      generate_stl (fun _ => 1) gridDegenerate exTrack
        [some 10, some 20] 1 2 cfgDefault ≠
        Except.error GenError.degenerateExtent := by
  have hok : generate_stl (fun _ => 1) gridDegenerate exTrack
      [some 10, some 20] 1 2 cfgDefault =
      Except.ok (buildMesh (fun _ => 1) gridDegenerate exTrack
        [some 10, some 20] 1 2 cfgDefault) := rfl
  refine ⟨⟨_, hok⟩, ?_⟩
  rw [hok]
  intro hc
  exact Except.noConfusion hc

/-- C6: a (well-formed, nonempty) grid in which every sample's elevation is
missing makes generation fail — `np.min` over the empty filtered elevation
array raises, re-raised as the elevation-processing `ValueError`
(`EmptyElevationRangeError` in the spec taxonomy) — and no output is
produced. -/
theorem all_missing_elevations_fail (cosD : ℚ → ℚ) (g : List GridPoint)
    (tp : List TrackPoint) (te : List (Option ℚ)) (w h : ℕ) (cfg : Config)
    (hne : g ≠ []) (hlen : g.length = w * h) (htp : tp ≠ [])
    (hmiss : ∀ p ∈ g, p.elev = none) :
    generate_stl cosD g tp te w h cfg =
      Except.error GenError.emptyElevationRange := by
  have hv : validElevs g = [] := by
    unfold validElevs
    rw [List.filter_eq_nil_iff]
    intro a ha
    rw [List.mem_map] at ha
    obtain ⟨p, hp, rfl⟩ := ha
    rw [hmiss p hp]
    decide
  unfold generate_stl
  rw [if_neg (by simp [hne, hlen]), if_neg (by simp [htp]), if_pos hv]

/-- Witness for C6: a 2×1 grid whose two elevations are both missing. -/
theorem all_missing_elevations_fail_witness :
    (([⟨0, 0, none⟩, ⟨0, 1, none⟩] : List GridPoint) ≠ [] ∧
        ([⟨0, 0, none⟩, ⟨0, 1, none⟩] : List GridPoint).length = 2 * 1 ∧
        exTrackOne ≠ [] ∧
        ∀ p ∈ ([⟨0, 0, none⟩, ⟨0, 1, none⟩] : List GridPoint),
          p.elev = none) ∧
      generate_stl (fun _ => 1) [⟨0, 0, none⟩, ⟨0, 1, none⟩] exTrackOne []
          2 1 cfgDefault =
        Except.error GenError.emptyElevationRange :=
  ⟨⟨by decide, by decide, by decide, by decide⟩,
    all_missing_elevations_fail (fun _ => 1) _ exTrackOne [] 2 1 cfgDefault
      (by decide) (by decide) (by decide) (by decide)⟩

/-- C10: a grid with zero samples is rejected with the invalid-grid error
even when `width*height == 0`, i.e. even when `len(samples) == width*height`
holds — `if not elevation_grid` fires first, so an empty sample sequence
never reaches geometry construction. -/
theorem empty_grid_rejected (cosD : ℚ → ℚ) (tp : List TrackPoint)
    (te : List (Option ℚ)) (w h : ℕ) (cfg : Config)
    (_hlen : ([] : List GridPoint).length = w * h) :
    generate_stl cosD [] tp te w h cfg = Except.error GenError.invalidGrid := by
  unfold generate_stl
  rw [if_pos (Or.inl rfl)]

/-- Witness for C10 with `width = 0`, `height = 3` (so `width*height == 0 ==
len(samples)` and the length invariant holds). -/
theorem empty_grid_rejected_witness :
    ([] : List GridPoint).length = 0 * 3 ∧
      generate_stl (fun _ => 1) [] exTrack [] 0 3 cfgDefault =
        Except.error GenError.invalidGrid :=
  ⟨by decide, empty_grid_rejected (fun _ => 1) exTrack [] 0 3 cfgDefault
    (by decide)⟩

/-- C5: generation is deterministic and its output embeds neither the
temporary file path nor any timestamp: the byte stream is a function of the
inputs alone, independent of the per-call environment (temp path, clock).
The serializer itself is the external `numpy-stl` library, modelled from the
spec's §4.5 contract as the pure `serializeMesh`; the source's temp-file
round trip returns exactly the bytes written. -/
theorem generation_deterministic (env1 env2 : Env) (cosD : ℚ → ℚ)
    (g : List GridPoint) (tp : List TrackPoint) (te : List (Option ℚ))
    (w h : ℕ) (cfg : Config) :
    generateBytes env1 cosD g tp te w h cfg =
      generateBytes env2 cosD g tp te w h cfg :=
  rfl

/-- `k` is a valid position in `range(0, n, s)` iff `k*s < n`. -/
theorem strideCount_lt (n s k : ℕ) (hs : 1 ≤ s) :
    k < (n + s - 1) / s ↔ k * s < n := by
  rw [Nat.lt_iff_add_one_le, Nat.le_div_iff_mul_le (by omega)]
  have he : (k + 1) * s = k * s + s := by ring
  omega

/-- The `k`-th stride index is `k*s`, defined exactly when `k*s < n`. -/
theorem strideIndices_get (n s k : ℕ) (hs : 1 ≤ s) :
    (strideIndices n s)[k]? = if k * s < n then some (k * s) else none := by
  unfold strideIndices
  rw [List.getElem?_map]
  by_cases hk : k < (n + s - 1) / s
  · rw [List.getElem?_range hk, if_pos ((strideCount_lt n s k hs).mp hk)]
    rfl
  · rw [List.getElem?_eq_none (by rw [List.length_range]; omega),
      if_neg (fun hc => hk ((strideCount_lt n s k hs).mpr hc))]
    rfl

/-- The stride is always at least 1. -/
theorem trackStride_pos (tp : List TrackPoint) : 1 ≤ trackStride tp :=
  le_max_left 1 _

/-- The `k`-th retained track point is the original point at index
`k * stride`. -/
theorem sampledTrack_get (tp : List TrackPoint) (k : ℕ) :
    (sampledTrack tp)[k]? =
      if k * trackStride tp < tp.length then tp[k * trackStride tp]?
      else none := by
  unfold sampledTrack
  rw [List.getElem?_map,
    strideIndices_get tp.length (trackStride tp) k (trackStride_pos tp)]
  by_cases hk : k * trackStride tp < tp.length
  · rw [if_pos hk, if_pos hk]
    simp only [Option.map_some', List.getD_eq_getElem?_getD,
      List.getElem?_eq_getElem hk, Option.getD_some]
  · rw [if_neg hk, if_neg hk]
    rfl

/-- The elevation assigned to retained point `k`: the original elevation at
index `k*stride` when that index is within the elevation sequence and the
value is present, `min_elev` otherwise. -/
theorem resolveTrackElev_eq (tp : List TrackPoint) (te : List (Option ℚ))
    (m : ℚ) (k : ℕ) (hk : k * trackStride tp < tp.length) :
    resolveTrackElev (sampledElevations tp te) m k =
      (if k * trackStride tp < te.length
       then te.getD (k * trackStride tp) none else none).getD m := by
  have hs : 1 ≤ trackStride tp := trackStride_pos tp
  have hkc : k < (tp.length + trackStride tp - 1) / trackStride tp :=
    (strideCount_lt _ _ k hs).mpr hk
  have hlen : (sampledElevations tp te).length =
      (tp.length + trackStride tp - 1) / trackStride tp := by
    unfold sampledElevations strideIndices
    simp
  have hget : (sampledElevations tp te).getD k none =
      (if k * trackStride tp < te.length
       then te.getD (k * trackStride tp) none else none) := by
    unfold sampledElevations
    rw [List.getD_eq_getElem?_getD, List.getElem?_map,
      strideIndices_get tp.length (trackStride tp) k hs, if_pos hk]
    rfl
  unfold resolveTrackElev
  rw [hget, hlen]
  rcases hval : (if k * trackStride tp < te.length
      then te.getD (k * trackStride tp) none else none) with _ | v
  · rw [if_neg (fun hc => hc.2 rfl)]
    rfl
  · rw [if_pos ⟨hkc, by exact fun hc => Option.noConfusion hc⟩]

/-- C7: the track embedder keeps exactly the points at indices
`0, stride, 2*stride, ...` with `stride = max(1, count // 200)`; a retained
point whose elevation is missing or whose stride index is beyond the end of
the elevation sequence gets `min_elev`; and a track with fewer than 2 points
is skipped silently (no vertices, no faces, no error). -/
theorem track_embedder_spec (tp : List TrackPoint) (te : List (Option ℚ))
    (m : ℚ) :
    trackStride tp = max 1 (tp.length / 200) ∧
      (∀ k : ℕ, (sampledTrack tp)[k]? =
        if k * trackStride tp < tp.length then tp[k * trackStride tp]?
        else none) ∧
      (∀ k : ℕ, k * trackStride tp < tp.length →
        resolveTrackElev (sampledElevations tp te) m k =
          (if k * trackStride tp < te.length
           then te.getD (k * trackStride tp) none else none).getD m) ∧
      (tp.length < 2 → ∀ (sc : ScaleContext) (pe : ℚ) (bvs : ℕ)
        (acc : List Vertex × List Face), addTrack sc pe tp te bvs acc = acc) := by
  refine ⟨rfl, sampledTrack_get tp, resolveTrackElev_eq tp te m, ?_⟩
  intro hshort sc pe bvs acc
  unfold addTrack
  rw [if_neg (by omega)]

/-- Witness for C7: elevation resolution at retained point 0 of a two-point
track (elevation present: index 0 of the parallel sequence is `none`, so
`min_elev` is assigned), and the silent skip for a one-point track. -/
theorem track_embedder_spec_witness :
    (0 * trackStride exTrack < exTrack.length ∧ exTrackOne.length < 2) ∧
      (resolveTrackElev (sampledElevations exTrack [none, some 7]) 99 0 =
          (if 0 * trackStride exTrack <
              ([none, some 7] : List (Option ℚ)).length
           then ([none, some 7] : List (Option ℚ)).getD
              (0 * trackStride exTrack) none
           else none).getD 99 ∧
        addTrack exScale 1 exTrackOne [] 5 ([], []) = ([], [])) :=
  ⟨⟨by decide, by decide⟩,
    ⟨(track_embedder_spec exTrack [none, some 7] 99).2.2.1 0 (by decide),
     (track_embedder_spec exTrackOne [] 99).2.2.2 (by decide) exScale 1 5
       ([], [])⟩⟩

/-- C8: with `x_scale = model_width_mm / geo_width > 0` and a center
latitude strictly between -90 and 90 degrees,
`y_scale = x_scale / cos(radians |center_lat|)` satisfies
`y_scale ≥ x_scale`, with equality at `center_lat = 0`. -/
theorem latitude_scale_correction (mw gw c : ℝ) (hmw : 0 < mw)
    (hgw : 0 < gw) (hc : |c| < 90) :
    yScaleR (xScaleR mw gw) c = xScaleR mw gw / Real.cos (radiansR |c|) ∧
      xScaleR mw gw ≤ yScaleR (xScaleR mw gw) c ∧
      (c = 0 → yScaleR (xScaleR mw gw) c = xScaleR mw gw) := by
  have hx : 0 < xScaleR mw gw := div_pos hmw hgw
  have hθnn : 0 ≤ radiansR |c| := by
    unfold radiansR
    positivity
  have hθlt : radiansR |c| < Real.pi / 2 := by
    unfold radiansR
    have h1 : |c| * Real.pi < 90 * Real.pi :=
      mul_lt_mul_of_pos_right hc Real.pi_pos
    calc |c| * Real.pi / 180 < 90 * Real.pi / 180 :=
          (div_lt_div_iff_of_pos_right (by norm_num : (0:ℝ) < 180)).mpr h1
      _ = Real.pi / 2 := by ring
  have hcos : 0 < Real.cos (radiansR |c|) :=
    Real.cos_pos_of_mem_Ioo
      ⟨by linarith [Real.pi_pos], hθlt⟩
  have hcos1 : Real.cos (radiansR |c|) ≤ 1 := Real.cos_le_one _
  refine ⟨rfl, ?_, ?_⟩
  · unfold yScaleR longitudeScaleFactor
    rw [le_div_iff₀ hcos]
    exact mul_le_of_le_one_right hx.le hcos1
  · intro hc0
    subst hc0
    unfold yScaleR longitudeScaleFactor radiansR
    rw [abs_zero, zero_mul, zero_div, Real.cos_zero, div_one]

/-- Witness for C8 at `model_width = 100`, `geo_width = 1`,
`center_lat = 45`. -/
theorem latitude_scale_correction_witness :
    ((0:ℝ) < 100 ∧ (0:ℝ) < 1 ∧ |(45:ℝ)| < 90) ∧
      xScaleR 100 1 ≤ yScaleR (xScaleR 100 1) 45 :=
  ⟨⟨by norm_num, by norm_num, by norm_num⟩,
    (latitude_scale_correction 100 1 45 (by norm_num) (by norm_num)
      (by norm_num)).2.1⟩

end Mercury
